import Mathlib

/-!
Shallow embedding of src/main.py: a FastAPI CRUD service over a single
SQLite table with per-operation CRUD counters.  Python dicts are modelled
as insertion-ordered association lists so that the dict-literal semantics
of the handlers' response construction is captured faithfully.
-/

namespace ObsTool

/-- JSON/Python values appearing in response dictionaries. -/
inductive PyVal where
  | vnone : PyVal
  | vint : Int → PyVal
  | vstr : String → PyVal
deriving DecidableEq, Repr

/-- A Python dict with string keys, as an insertion-ordered association list. -/
abbrev PyDict := List (String × PyVal)

/-- Python dict assignment d[k] = v: overwrite in place when the key exists,
append otherwise. -/
def dictSet (d : PyDict) (k : String) (v : PyVal) : PyDict :=
  if d.any (fun p => p.1 == k) then
    d.map (fun p => if p.1 == k then (k, v) else p)
  else d ++ [(k, v)]

/-- A Python dict literal builds its dict by assigning the listed entries
left to right, so a later occurrence of a key overwrites an earlier one;
this is how the double-star unpacking in the handlers merges dicts. -/
def dictLit (ps : List (String × PyVal)) : PyDict :=
  List.foldl (fun d p => dictSet d p.1 p.2) [] ps

/-- Python dict lookup d[k]. -/
def dictGet (d : PyDict) (k : String) : Option PyVal :=
  (d.find? (fun p => p.1 == k)).map Prod.snd

/-- One row of the items table, per the schema in init_db (src/main.py
lines 36-40): id INTEGER PRIMARY KEY AUTOINCREMENT, name TEXT NOT NULL,
description TEXT nullable. -/
structure Row where
  id : Int
  name : String
  description : Option String
deriving DecidableEq, Repr

/-- sqlite3.Row converted by dict(row): columns in schema order. -/
def Row.toDict (r : Row) : PyDict :=
  [("id", PyVal.vint r.id), ("name", PyVal.vstr r.name),
   ("description", match r.description with
     | none => PyVal.vnone
     | some s => PyVal.vstr s)]

/-- The SQLite store: the rows of the items table plus the AUTOINCREMENT
sequence counter (the largest rowid ever assigned, 0 when none). -/
structure DB where
  rows : List Row
  seq : Int
deriving DecidableEq, Repr

/-- INSERT INTO items (name, description) VALUES (?, ?).  AUTOINCREMENT
assigns one more than the largest id ever used and cursor.lastrowid
returns it. -/
def DB.insert (db : DB) (name : String) (description : Option String) :
    Int × DB :=
  let newId := db.seq + 1
  (newId, ⟨db.rows ++ [⟨newId, name, description⟩], newId⟩)

/-- SELECT * FROM items WHERE id = ? followed by fetchone(): the first
matching row, or None. -/
def DB.getById (db : DB) (i : Int) : Option Row :=
  db.rows.find? (fun r => r.id == i)

/-- UPDATE items SET name = ?, description = ? WHERE id = ?.  Returns
cursor.rowcount (the number of matching rows) together with the new
store. -/
def DB.updateById (db : DB) (i : Int) (name : String)
    (description : Option String) : Nat × DB :=
  (db.rows.countP (fun r => r.id == i),
   ⟨db.rows.map (fun r => if r.id == i then ⟨r.id, name, description⟩ else r),
    db.seq⟩)

/-- DELETE FROM items WHERE id = ?.  Returns cursor.rowcount (the number
of rows removed) together with the new store. -/
def DB.deleteById (db : DB) (i : Int) : Nat × DB :=
  (db.rows.countP (fun r => r.id == i),
   ⟨db.rows.filter (fun r => !(r.id == i)), db.seq⟩)

/-- SELECT * FROM items followed by fetchall(). -/
def DB.listAll (db : DB) : List Row :=
  db.rows

/-- The CRUD_OPS Prometheus counter of src/main.py line 17, one count per
operation label. -/
structure Metrics where
  create : Nat
  read : Nat
  update : Nat
  delete : Nat
  list : Nat
deriving DecidableEq, Repr

/-- Process state visible to the handlers: the store and the CRUD counter. -/
structure AppState where
  db : DB
  metrics : Metrics
deriving DecidableEq, Repr

/-- State right after init_db on a fresh working directory: empty table,
sequence at 0, all counters at 0. -/
def initState : AppState :=
  ⟨⟨[], 0⟩, ⟨0, 0, 0, 0, 0⟩⟩

/-- The request body as received on the wire, before pydantic validation:
each field of the Item model may be present or absent. -/
structure ItemBody where
  id : Option Int
  name : Option String
  description : Option String
deriving DecidableEq, Repr

/-- The pydantic Item model (src/main.py lines 20-23): id optional with
default None, name a required str, description optional with default
None. -/
structure Item where
  id : Option Int
  name : String
  description : Option String
deriving DecidableEq, Repr

/-- Pydantic validation of the Item model: a body missing the required
name field is rejected (FastAPI answers 422 before the handler runs,
naming the invalid field); any string, including the empty string,
passes for name. -/
def validateItem (b : ItemBody) : Except String Item :=
  match b.name with
  | none => Except.error "name"
  | some n => Except.ok ⟨b.id, n, b.description⟩

/-- item.dict() of the pydantic model: all three fields, defaults
included. -/
def Item.dict (it : Item) : PyDict :=
  [("id", match it.id with
     | none => PyVal.vnone
     | some n => PyVal.vint n),
   ("name", PyVal.vstr it.name),
   ("description", match it.description with
     | none => PyVal.vnone
     | some s => PyVal.vstr s)]

/-- Response bodies produced by the service. -/
inductive Body where
  | dict : PyDict → Body
  | arr : List PyDict → Body
  | empty : Body
  | detail : String → Body
deriving DecidableEq, Repr

/-- An HTTP response: status code and body. -/
structure Response where
  status : Nat
  body : Body
deriving DecidableEq, Repr

/-- Exceptions escaping a handler: fastapi.HTTPException, or an
infrastructure error from the storage engine. -/
inductive PyError where
  | httpExc : Nat → String → PyError
  | infraErr : String → PyError
deriving DecidableEq, Repr

/-- Models create_item (src/main.py lines 65-72).  The INSERT omits id, so
the store assigns the auto-increment rowid.  The response dict is the
Python literal that first sets key id to item_id and then assigns every
key of item.dict() over it, so the body-supplied id (None by default)
overwrites the assigned rowid in the response. -/
def create_item (it : Item) (s : AppState) :
    Except PyError Response × AppState :=
  let res := s.db.insert it.name it.description
  let item_id := res.1
  let m := s.metrics
  (Except.ok ⟨201, Body.dict (dictLit (("id", PyVal.vint item_id) :: it.dict))⟩,
   ⟨res.2, { m with create := m.create + 1 }⟩)

/-- Models read_item (src/main.py lines 74-82): fetch one row by id,
raise HTTPException 404 when absent, otherwise count the read and return
dict(row). -/
def read_item (item_id : Int) (s : AppState) :
    Except PyError Response × AppState :=
  match s.db.getById item_id with
  | none => (Except.error (PyError.httpExc 404 "Item not found"), s)
  | some row =>
    let m := s.metrics
    (Except.ok ⟨200, Body.dict row.toDict⟩,
     ⟨s.db, { m with read := m.read + 1 }⟩)

/-- Models update_item (src/main.py lines 84-92): run the UPDATE and
commit, raise HTTPException 404 when rowcount is 0, otherwise count the
update and return the same dict literal as create, whose id key is again
overwritten by the body's id. -/
def update_item (item_id : Int) (it : Item) (s : AppState) :
    Except PyError Response × AppState :=
  let res := s.db.updateById item_id it.name it.description
  if res.1 = 0 then
    (Except.error (PyError.httpExc 404 "Item not found"), ⟨res.2, s.metrics⟩)
  else
    let m := s.metrics
    (Except.ok ⟨200, Body.dict (dictLit (("id", PyVal.vint item_id) :: it.dict))⟩,
     ⟨res.2, { m with update := m.update + 1 }⟩)

/-- Models delete_item (src/main.py lines 94-102): run the DELETE and
commit, raise HTTPException 404 when rowcount is 0, otherwise count the
delete and answer 204 with an empty body. -/
def delete_item (item_id : Int) (s : AppState) :
    Except PyError Response × AppState :=
  let res := s.db.deleteById item_id
  if res.1 = 0 then
    (Except.error (PyError.httpExc 404 "Item not found"), ⟨res.2, s.metrics⟩)
  else
    let m := s.metrics
    (Except.ok ⟨204, Body.empty⟩, ⟨res.2, { m with delete := m.delete + 1 }⟩)

/-- Models list_items (src/main.py lines 104-110): fetch all rows, count
the list, return the array of dict(row). -/
def list_items (s : AppState) : Except PyError Response × AppState :=
  let rows := s.db.listAll
  let m := s.metrics
  (Except.ok ⟨200, Body.arr (rows.map Row.toDict)⟩,
   ⟨s.db, { m with list := m.list + 1 }⟩)

/-- Whether a scoped connection was opened for the request and whether it
was closed by the end of the request. -/
structure ConnLog where
  opened : Bool
  closed : Bool
deriving DecidableEq, Repr

/-- Models get_db (src/main.py lines 25-31): the dependency opens a
connection, yields it to the handler, and its finally block closes it on
every exit path — normal return, HTTPException, or infrastructure
error alike. -/
def get_db (run : Except PyError Response × AppState) :
    (Except PyError Response × AppState) × ConnLog :=
  match run with
  | (Except.ok r, s) => ((Except.ok r, s), ⟨true, true⟩)
  | (Except.error e, s) => ((Except.error e, s), ⟨true, true⟩)

/-- FastAPI turns an escaping HTTPException into a JSON response with a
detail field; any other exception surfaces as a generic 500. -/
def exceptionResponse : PyError → Response
  | PyError.httpExc code d => ⟨code, Body.detail d⟩
  | PyError.infraErr _ => ⟨500, Body.detail "Internal Server Error"⟩

/-- Run a handler under the scoped get_db dependency and render its
outcome as an HTTP response. -/
def finish (run : Except PyError Response × AppState) :
    Response × AppState × ConnLog :=
  let out := get_db run
  match out.1.1 with
  | Except.ok r => (r, out.1.2, out.2)
  | Except.error e => (exceptionResponse e, out.1.2, out.2)

/-- The five CRUD requests of the HTTP surface. -/
inductive Request where
  | createReq : ItemBody → Request
  | readReq : Int → Request
  | updateReq : Int → ItemBody → Request
  | deleteReq : Int → Request
  | listReq : Request
deriving DecidableEq, Repr

/-- The dispatch layer: body-carrying routes run pydantic validation
first — a validation failure is answered 422 without entering the
handler or its database dependency scope — and every handler runs inside
the scoped get_db dependency. -/
def handle (req : Request) (s : AppState) : Response × AppState × ConnLog :=
  match req with
  | Request.createReq b =>
    match validateItem b with
    | Except.error f => (⟨422, Body.detail ("field required: " ++ f)⟩, s,
        ⟨false, false⟩)
    | Except.ok it => finish (create_item it s)
  | Request.readReq i => finish (read_item i s)
  | Request.updateReq i b =>
    match validateItem b with
    | Except.error f => (⟨422, Body.detail ("field required: " ++ f)⟩, s,
        ⟨false, false⟩)
    | Except.ok it => finish (update_item i it s)
  | Request.deleteReq i => finish (delete_item i s)
  | Request.listReq => finish (list_items s)

/-- Execute a sequence of requests, threading the state. -/
def execTrace (t : List Request) (s : AppState) : AppState :=
  match t with
  | [] => s
  | r :: rest => execTrace rest (handle r s).2.1

/-- A request passes the step condition when a create or update body has
the required name and a delete targets an id currently present. -/
def validStep : Request → AppState → Bool
  | Request.createReq b, _ => b.name.isSome
  | Request.deleteReq i, s => (s.db.getById i).isSome
  | _, _ => true

/-- Every request of the trace passes its step condition in the state it
actually runs in. -/
def validTrace : List Request → AppState → Bool
  | [], _ => true
  | r :: rest, s => validStep r s && validTrace rest (handle r s).2.1

/-- Recognizer for create requests. -/
def isCreateReq : Request → Bool
  | Request.createReq _ => true
  | _ => false

/-- Recognizer for delete requests. -/
def isDeleteReq : Request → Bool
  | Request.deleteReq _ => true
  | _ => false

/-- Number of create requests in a trace. -/
def countCreates (t : List Request) : Nat :=
  t.countP isCreateReq

/-- Number of delete requests in a trace. -/
def countDeletes (t : List Request) : Nat :=
  t.countP isDeleteReq

/-- The store invariant maintained by the service: the sequence counter
is nonnegative, every row id is positive and at most the sequence
counter, and row ids are pairwise distinct (id is a primary key). -/
def dbInv (db : DB) : Prop :=
  0 ≤ db.seq ∧ (∀ r ∈ db.rows, 0 < r.id ∧ r.id ≤ db.seq) ∧
    (db.rows.map Row.id).Nodup

instance (db : DB) : Decidable (dbInv db) :=
  decidable_of_iff
    (0 ≤ db.seq ∧ (∀ r ∈ db.rows, 0 < r.id ∧ r.id ≤ db.seq) ∧
      (db.rows.map Row.id).Nodup) Iff.rfl

/-! Helper lemmas about the storage operations and the dispatch loop. -/

lemma length_filter_not_add_countP {α : Type} (p : α → Bool) (l : List α) :
    (l.filter (fun a => !(p a))).length + l.countP p = l.length := by
  induction l with
  | nil => simp
  | cons a l ih =>
    cases h : p a <;> simp [List.filter_cons, List.countP_cons, h] <;> omega

lemma countP_id_le_one (rows : List Row) (h : (rows.map Row.id).Nodup) (i : Int) :
    rows.countP (fun r => r.id == i) ≤ 1 := by
  induction rows with
  | nil => simp
  | cons a l ih =>
    simp only [List.map_cons, List.nodup_cons] at h
    by_cases ha : a.id = i
    · have hz : l.countP (fun r => r.id == i) = 0 := by
        rw [List.countP_eq_zero]
        intro r hr hpr
        exact h.1 (List.mem_map.2 ⟨r, hr, by have := of_decide_eq_true hpr; omega⟩)
      simp [List.countP_cons, ha, hz]
    · have : (a.id == i) = false := by simpa using ha
      simp only [List.countP_cons, this, if_false]
      simpa using ih h.2

lemma countP_id_pos_of_getById (db : DB) (i : Int)
    (h : (db.getById i).isSome = true) :
    0 < db.rows.countP (fun r => r.id == i) := by
  rw [List.countP_pos_iff]
  exact (List.find?_isSome).1 h

lemma dbInv_insert (db : DB) (n : String) (d : Option String) (h : dbInv db) :
    dbInv (db.insert n d).2 := by
  obtain ⟨hseq, hbound, hnodup⟩ := h
  refine ⟨by simp [DB.insert]; omega, ?_, ?_⟩
  · intro r hr
    simp only [DB.insert, List.mem_append, List.mem_singleton] at hr
    simp only [DB.insert]
    rcases hr with hr | hr
    · have := hbound r hr
      exact ⟨this.1, by omega⟩
    · subst hr
      exact ⟨by simp; omega, by simp⟩
  · simp only [DB.insert, List.map_append, List.map_cons, List.map_nil,
      List.nodup_append]
    refine ⟨hnodup, List.nodup_singleton _, ?_⟩
    intro x hx hx2
    simp only [List.mem_singleton] at hx2
    subst hx2
    rcases List.mem_map.1 hx with ⟨r, hr, hid⟩
    have := hbound r hr
    omega

lemma getById_insert_self (db : DB) (n : String) (d : Option String)
    (h : dbInv db) :
    (db.insert n d).2.getById (db.seq + 1) = some ⟨db.seq + 1, n, d⟩ := by
  obtain ⟨hseq, hbound, hnodup⟩ := h
  have h1 : db.rows.find? (fun r => r.id == db.seq + 1) = none := by
    rw [List.find?_eq_none]
    intro r hr
    have := hbound r hr
    simp only [beq_iff_eq]
    omega
  simp [DB.insert, DB.getById, List.find?_append, h1]

lemma updateById_map_id (db : DB) (i : Int) (n : String) (d : Option String) :
    (db.updateById i n d).2.rows.map Row.id = db.rows.map Row.id := by
  simp only [DB.updateById, List.map_map]
  have : (Row.id ∘ fun r : Row =>
      if r.id == i then (⟨r.id, n, d⟩ : Row) else r) = Row.id := by
    funext r
    simp only [Function.comp_apply]
    split <;> rfl
  rw [this]

lemma dbInv_updateById (db : DB) (i : Int) (n : String) (d : Option String)
    (h : dbInv db) : dbInv (db.updateById i n d).2 := by
  obtain ⟨hseq, hbound, hnodup⟩ := h
  refine ⟨hseq, ?_, by rw [updateById_map_id]; exact hnodup⟩
  intro r hr
  simp only [DB.updateById] at hr ⊢
  rcases List.mem_map.1 hr with ⟨r0, hr0, hf⟩
  have hb := hbound r0 hr0
  subst hf
  split <;> simpa using hb

lemma dbInv_deleteById (db : DB) (i : Int) (h : dbInv db) :
    dbInv (db.deleteById i).2 := by
  obtain ⟨hseq, hbound, hnodup⟩ := h
  refine ⟨hseq, ?_, ?_⟩
  · intro r hr
    simp only [DB.deleteById] at hr
    exact hbound r (List.mem_filter.1 hr).1
  · simp only [DB.deleteById]
    exact List.Nodup.sublist ((List.filter_sublist db.rows).map Row.id) hnodup

lemma getById_deleteById (db : DB) (i : Int) :
    (db.deleteById i).2.getById i = none := by
  simp only [DB.deleteById, DB.getById]
  rw [List.find?_eq_none]
  intro r hr
  have := (List.mem_filter.1 hr).2
  simpa using this

lemma countP_deleteById (db : DB) (i : Int) :
    (db.deleteById i).2.rows.countP (fun r => r.id == i) = 0 := by
  simp only [DB.deleteById]
  rw [List.countP_eq_zero]
  intro r hr
  have := (List.mem_filter.1 hr).2
  simpa using this

lemma deleteById_length (db : DB) (i : Int)
    (hn : (db.rows.map Row.id).Nodup) (hs : (db.getById i).isSome = true) :
    (db.deleteById i).2.rows.length + 1 = db.rows.length := by
  have h1 := length_filter_not_add_countP (fun r => r.id == i) db.rows
  have h2 : db.rows.countP (fun r => r.id == i) = 1 :=
    le_antisymm (countP_id_le_one _ hn i) (countP_id_pos_of_getById db i hs)
  simp only [DB.deleteById]
  omega

lemma finish_state (run : Except PyError Response × AppState) :
    (finish run).2.1 = run.2 := by
  rcases run with ⟨out, st⟩
  cases out <;> rfl

lemma update_item_db (i : Int) (it : Item) (s : AppState) :
    (update_item i it s).2.db = (s.db.updateById i it.name it.description).2 := by
  simp only [update_item]
  split <;> rfl

lemma dbInv_handle (r : Request) (s : AppState) (h : dbInv s.db) :
    dbInv (handle r s).2.1.db := by
  cases r with
  | createReq b =>
    cases hb : b.name with
    | none => simpa [handle, validateItem, hb] using h
    | some n =>
      simpa [handle, validateItem, hb, finish, get_db, create_item] using
        dbInv_insert s.db n b.description h
  | readReq i =>
    cases hg : s.db.getById i <;>
      simp [handle, finish, get_db, read_item, hg] <;> exact h
  | updateReq i b =>
    cases hb : b.name with
    | none => simpa [handle, validateItem, hb] using h
    | some n =>
      have hu := dbInv_updateById s.db i n b.description h
      by_cases hc : (s.db.updateById i n b.description).1 = 0 <;>
        simpa [handle, validateItem, hb, finish, get_db, update_item, hc]
          using hu
  | deleteReq i =>
    have hd := dbInv_deleteById s.db i h
    by_cases hc : (s.db.deleteById i).1 = 0 <;>
      simpa [handle, finish, get_db, delete_item, hc] using hd
  | listReq =>
    simpa [handle, finish, get_db, list_items] using h

lemma handle_rows_length (r : Request) (s : AppState) (hInv : dbInv s.db)
    (hv : validStep r s = true) :
    (handle r s).2.1.db.rows.length + (if isDeleteReq r then 1 else 0) =
      s.db.rows.length + (if isCreateReq r then 1 else 0) := by
  cases r with
  | createReq b =>
    cases hb : b.name with
    | none => simp [validStep, hb] at hv
    | some n =>
      simp [handle, validateItem, hb, finish, get_db, create_item, DB.insert,
        isDeleteReq, isCreateReq]
  | readReq i =>
    cases hg : s.db.getById i <;>
      simp [handle, finish, get_db, read_item, hg, isDeleteReq, isCreateReq]
  | updateReq i b =>
    cases hb : b.name with
    | none => simp [handle, validateItem, hb, isDeleteReq, isCreateReq]
    | some n =>
      have h1 : (handle (Request.updateReq i b) s).2.1 =
          (update_item i ⟨b.id, n, b.description⟩ s).2 := by
        simp only [handle, validateItem, hb]
        exact finish_state _
      simp [h1, update_item_db, DB.updateById, isDeleteReq, isCreateReq]
  | deleteReq i =>
    have hvs : (s.db.getById i).isSome = true := by simpa [validStep] using hv
    have hlen := deleteById_length s.db i hInv.2.2 hvs
    have hc : ¬ (s.db.deleteById i).1 = 0 := by
      have := countP_id_pos_of_getById s.db i hvs
      simp only [DB.deleteById]
      omega
    simp only [handle, finish, get_db, delete_item, hc, if_false,
      isDeleteReq, isCreateReq, if_true]
    simpa using hlen
  | listReq =>
    simp [handle, finish, get_db, list_items, isDeleteReq, isCreateReq]

lemma execTrace_inv (t : List Request) : ∀ s : AppState, dbInv s.db →
    dbInv (execTrace t s).db := by
  induction t with
  | nil => intro s h; exact h
  | cons r t ih => intro s h; exact ih _ (dbInv_handle r s h)

lemma execTrace_length (t : List Request) : ∀ s : AppState, dbInv s.db →
    validTrace t s = true →
    (execTrace t s).db.rows.length + countDeletes t =
      s.db.rows.length + countCreates t := by
  induction t with
  | nil => intro s _ _; simp [execTrace, countDeletes, countCreates]
  | cons r t ih =>
    intro s hInv hv
    rw [validTrace, Bool.and_eq_true] at hv
    have hstep := handle_rows_length r s hInv hv.1
    have htail := ih _ (dbInv_handle r s hInv) hv.2
    simp only [execTrace, countDeletes, countCreates, List.countP_cons] at *
    omega

lemma delete_item_db (i : Int) (s : AppState) :
    (delete_item i s).2.db = (s.db.deleteById i).2 := by
  simp only [delete_item]
  split <;> rfl

lemma finish_log (run : Except PyError Response × AppState) :
    (finish run).2.2 = ⟨true, true⟩ := by
  rcases run with ⟨o, st⟩
  cases o <;> rfl

lemma handle_read_404 (s : AppState) (i : Int) (h : s.db.getById i = none) :
    (handle (Request.readReq i) s).1 = ⟨404, Body.detail "Item not found"⟩ := by
  simp [handle, finish, get_db, read_item, h, exceptionResponse]

lemma handle_delete_404 (s : AppState) (i : Int)
    (h : (s.db.deleteById i).1 = 0) :
    (handle (Request.deleteReq i) s).1 =
      ⟨404, Body.detail "Item not found"⟩ := by
  simp [handle, finish, get_db, delete_item, h, exceptionResponse]

lemma toDict_name (r : Row) :
    dictGet r.toDict "name" = some (PyVal.vstr r.name) := by
  simp [dictGet, Row.toDict, List.find?]

/-!  The claims, C1 to C10. -/

/-- C1: the claim fails on the code.  At POST /items/ with body id 99 and
name "foo" on a fresh store, the service answers 201 and the store
assigns the auto-increment rowid 1, but the response body's id field is
the body-supplied 99 rather than the assigned 1: in the handler's
response literal the unpacked item.dict() overwrites the previously set
assigned id, so the request body's id is echoed instead of ignored. -/
theorem C1_create_response_id_echoes_body_id :
    (handle (Request.createReq ⟨some 99, some "foo", none⟩) initState).1 =
      ⟨201, Body.dict [("id", PyVal.vint 99), ("name", PyVal.vstr "foo"),
        ("description", PyVal.vnone)]⟩ ∧
    (handle (Request.createReq ⟨some 99, some "foo", none⟩)
        initState).2.1.db.rows = [⟨1, "foo", none⟩] ∧
    PyVal.vint 99 ≠ PyVal.vint 1 := by
  decide

/-- C2 counterexample: updating id 1 on an empty store executes the
UPDATE statement (the storage layer is reached), answers 404, and leaves
the update counter at 0; likewise deleting id 1 leaves the delete
counter at 0 — refuting that the counter is incremented before the
affected-row check on every invocation that reaches the storage
layer. -/
theorem C2_counterexample_404_not_counted :
    (handle (Request.updateReq 1 ⟨none, some "x", none⟩) initState).1.status
        = 404 ∧
    (handle (Request.updateReq 1 ⟨none, some "x", none⟩)
        initState).2.1.metrics.update = 0 ∧
    (handle (Request.deleteReq 1) initState).1.status = 404 ∧
    (handle (Request.deleteReq 1) initState).2.1.metrics.delete = 0 := by
  decide

/-- C2 (amended): for every update and delete invocation that reaches
the storage layer, the per-operation-kind CRUD counter is incremented
exactly once when and only when the affected-row count is nonzero, after
that check resolves; invocations that end in 404 leave the counter
unchanged, so the counter reflects successful operations, not attempted
ones. -/
theorem C2_crud_counter_counts_successful_ops (s : AppState) (i : Int)
    (it : Item) :
    (update_item i it s).2.metrics.update =
      s.metrics.update +
        (if (s.db.updateById i it.name it.description).1 = 0 then 0 else 1) ∧
    (delete_item i s).2.metrics.delete =
      s.metrics.delete + (if (s.db.deleteById i).1 = 0 then 0 else 1) := by
  constructor
  · simp only [update_item]
    split <;> rename_i hc <;> simp [hc]
  · simp only [delete_item]
    split <;> rename_i hc <;> simp [hc]

/-- C3: the claim fails on the code.  After creating item 1 with name
"a", PUT /items/1 with body name "b" and no id answers 200, the stored
row keeps id 1 with the new fields, and a subsequent read returns them —
but the update response body's id is null (the body's default id), not
the path id 1, because the unpacked item.dict() overwrites the id key of
the response literal. -/
theorem C3_update_response_id_echoes_body_id :
    (handle (Request.updateReq 1 ⟨none, some "b", none⟩)
        (handle (Request.createReq ⟨none, some "a", none⟩) initState).2.1).1 =
      ⟨200, Body.dict [("id", PyVal.vnone), ("name", PyVal.vstr "b"),
        ("description", PyVal.vnone)]⟩ ∧
    (handle (Request.updateReq 1 ⟨none, some "b", none⟩)
        (handle (Request.createReq ⟨none, some "a", none⟩)
          initState).2.1).2.1.db.rows = [⟨1, "b", none⟩] ∧
    (handle (Request.readReq 1)
        (handle (Request.updateReq 1 ⟨none, some "b", none⟩)
          (handle (Request.createReq ⟨none, some "a", none⟩)
            initState).2.1).2.1).1 =
      ⟨200, Body.dict [("id", PyVal.vint 1), ("name", PyVal.vstr "b"),
        ("description", PyVal.vnone)]⟩ ∧
    PyVal.vnone ≠ PyVal.vint 1 := by
  decide

/-- C4 counterexample: a create whose body carries the empty string as
name passes validation (the pydantic str field accepts any string),
answers 201, and stores a row whose name is the empty string — refuting
that the name of every stored row is non-empty text. -/
theorem C4_counterexample_empty_name_stored :
    (handle (Request.createReq ⟨none, some "", none⟩) initState).1.status
        = 201 ∧
    (handle (Request.createReq ⟨none, some "", none⟩) initState).2.1.db.rows
        = [⟨1, "", none⟩] := by
  decide

/-- C4 (amended): every create or update request whose body is missing
the required name field is rejected before reaching the handler — a 422
response naming the invalid field, with the state untouched and no
database scope entered — and the name column of every stored row is
present (a string, possibly empty; the code does not enforce
non-emptiness). -/
theorem C4_missing_name_rejected (b : ItemBody) (s : AppState) (i : Int)
    (h : b.name = none) :
    handle (Request.createReq b) s =
      (⟨422, Body.detail "field required: name"⟩, s, ⟨false, false⟩) ∧
    handle (Request.updateReq i b) s =
      (⟨422, Body.detail "field required: name"⟩, s, ⟨false, false⟩) ∧
    ∀ r ∈ s.db.rows, dictGet r.toDict "name" = some (PyVal.vstr r.name) := by
  refine ⟨?_, ?_, ?_⟩
  · simp [handle, validateItem, h]
  · simp [handle, validateItem, h]
  · intro r _
    exact toDict_name r

/-- C4 witness: the amended theorem at the concrete body with no name on
the initial state. -/
theorem C4_missing_name_rejected_witness :
    handle (Request.createReq ⟨none, none, none⟩) initState =
      (⟨422, Body.detail "field required: name"⟩, initState,
        ⟨false, false⟩) :=
  (C4_missing_name_rejected ⟨none, none, none⟩ initState 1 rfl).1

/-- C5: deleting an id for which a row exists answers 204 with an empty
body and removes the row: a subsequent read of that id answers 404, and
deleting the same id again also answers 404. -/
theorem C5_delete_then_read_and_redelete_404 (s : AppState) (i : Int)
    (h : (s.db.getById i).isSome = true) :
    (handle (Request.deleteReq i) s).1 = ⟨204, Body.empty⟩ ∧
    (handle (Request.deleteReq i) s).2.1.db.getById i = none ∧
    (handle (Request.readReq i) (handle (Request.deleteReq i) s).2.1).1 =
      ⟨404, Body.detail "Item not found"⟩ ∧
    (handle (Request.deleteReq i) (handle (Request.deleteReq i) s).2.1).1 =
      ⟨404, Body.detail "Item not found"⟩ := by
  have hpos := countP_id_pos_of_getById s.db i h
  have hc : ¬ (s.db.deleteById i).1 = 0 := by
    simp only [DB.deleteById]
    omega
  have hdb : (handle (Request.deleteReq i) s).2.1.db =
      (s.db.deleteById i).2 := by
    have h1 : (handle (Request.deleteReq i) s).2.1 = (delete_item i s).2 :=
      finish_state _
    rw [h1, delete_item_db]
  refine ⟨?_, ?_, ?_, ?_⟩
  · simp [handle, finish, get_db, delete_item, hc]
  · rw [hdb]
    exact getById_deleteById s.db i
  · apply handle_read_404
    rw [hdb]
    exact getById_deleteById s.db i
  · apply handle_delete_404
    have h2 : ((handle (Request.deleteReq i) s).2.1.db.deleteById i).1 =
        (handle (Request.deleteReq i) s).2.1.db.rows.countP
          (fun r => r.id == i) := rfl
    rw [h2, hdb]
    exact countP_deleteById s.db i

/-- C5 witness: the theorem at id 1 on the state obtained by creating
one item. -/
theorem C5_delete_witness :
    (handle (Request.deleteReq 1)
      (handle (Request.createReq ⟨none, some "a", none⟩)
        initState).2.1).1 = ⟨204, Body.empty⟩ :=
  (C5_delete_then_read_and_redelete_404
    (handle (Request.createReq ⟨none, some "a", none⟩) initState).2.1 1
    (by decide)).1

/-- C6: reading an id answers 200 with the stored row's id, name and
description when a row with that id exists, and 404 with detail "Item
not found" otherwise; immediately after a create, reading the newly
assigned id (one past the previous sequence value) returns the very
name and description that were created. -/
theorem C6_read_item_responses (s : AppState) (i : Int) (b : ItemBody)
    (n : String) :
    (∀ row, s.db.getById i = some row →
      (handle (Request.readReq i) s).1 = ⟨200, Body.dict row.toDict⟩) ∧
    (s.db.getById i = none →
      (handle (Request.readReq i) s).1 =
        ⟨404, Body.detail "Item not found"⟩) ∧
    (b.name = some n → dbInv s.db →
      (handle (Request.readReq (s.db.seq + 1))
        ((handle (Request.createReq b) s).2.1)).1 =
        ⟨200, Body.dict (Row.toDict ⟨s.db.seq + 1, n, b.description⟩)⟩) := by
  refine ⟨?_, ?_, ?_⟩
  · intro row hrow
    simp [handle, finish, get_db, read_item, hrow]
  · intro h
    exact handle_read_404 s i h
  · intro hb hInv
    have h1 : (handle (Request.createReq b) s).2.1 =
        (create_item ⟨b.id, n, b.description⟩ s).2 := by
      simp only [handle, validateItem, hb]
      exact finish_state _
    rw [h1]
    have hg : (create_item ⟨b.id, n, b.description⟩ s).2.db.getById
        (s.db.seq + 1) = some ⟨s.db.seq + 1, n, b.description⟩ := by
      have h2 : (create_item ⟨b.id, n, b.description⟩ s).2.db =
          (s.db.insert n b.description).2 := rfl
      rw [h2]
      exact getById_insert_self s.db n b.description hInv
    simp [handle, finish, get_db, read_item, hg]

/-- C6 witness: the creation clause of the theorem at a concrete create
on the initial state. -/
theorem C6_read_witness :
    (handle (Request.readReq (initState.db.seq + 1))
      ((handle (Request.createReq ⟨none, some "foo", some "bar"⟩)
        initState).2.1)).1 =
      ⟨200, Body.dict (Row.toDict ⟨initState.db.seq + 1, "foo",
        some "bar"⟩)⟩ :=
  (C6_read_item_responses initState 1 ⟨none, some "foo", some "bar"⟩
    "foo").2.2 rfl (by decide)

/-- C7: after any sequence of requests whose creates carry the required
name and whose deletes each target an id present at that moment, a GET
of the item list answers 200 with the array of stored rows, and the
number of returned items plus the number of deletes equals the number of
creates (N minus M items for N creates and M deletes). -/
theorem C7_list_after_creates_and_deletes (t : List Request)
    (h : validTrace t initState = true) :
    (handle Request.listReq (execTrace t initState)).1 =
      ⟨200, Body.arr ((execTrace t initState).db.rows.map Row.toDict)⟩ ∧
    ((execTrace t initState).db.rows.map Row.toDict).length +
        countDeletes t = countCreates t := by
  constructor
  · simp [handle, finish, get_db, list_items, DB.listAll]
  · have hInv : dbInv initState.db := by decide
    have hlen := execTrace_length t initState hInv h
    simp only [List.length_map]
    simpa [initState] using hlen

/-- C7 witness: the count clause of the theorem on the trace that
creates two items and deletes the first. -/
theorem C7_list_witness :
    ((execTrace [Request.createReq ⟨none, some "a", none⟩,
        Request.createReq ⟨none, some "b", none⟩, Request.deleteReq 1]
        initState).db.rows.map Row.toDict).length +
      countDeletes [Request.createReq ⟨none, some "a", none⟩,
        Request.createReq ⟨none, some "b", none⟩, Request.deleteReq 1] =
      countCreates [Request.createReq ⟨none, some "a", none⟩,
        Request.createReq ⟨none, some "b", none⟩, Request.deleteReq 1] :=
  (C7_list_after_creates_and_deletes
    [Request.createReq ⟨none, some "a", none⟩,
      Request.createReq ⟨none, some "b", none⟩, Request.deleteReq 1]
    (by decide)).2

/-- C8: in every state reachable from the initial one the stored rows
have pairwise distinct ids, every stored row's dict carries a present
name string, and the update handler never changes any row's id — it
rewrites only name and description, leaving the list of ids of the store
unchanged. -/
theorem C8_store_invariants (t : List Request) (s : AppState) (i : Int)
    (it : Item) :
    ((execTrace t initState).db.rows.map Row.id).Nodup ∧
    (∀ r ∈ (execTrace t initState).db.rows,
      dictGet r.toDict "name" = some (PyVal.vstr r.name)) ∧
    (update_item i it s).2.db.rows.map Row.id = s.db.rows.map Row.id := by
  refine ⟨?_, ?_, ?_⟩
  · exact (execTrace_inv t initState (by decide)).2.2
  · intro r _
    exact toDict_name r
  · rw [update_item_db]
    exact updateById_map_id s.db i it.name it.description

/-- C8 witness: the id-preservation clause of the theorem at a concrete
update on the initial state. -/
theorem C8_store_invariants_witness :
    (update_item 1 ⟨none, "x", none⟩ initState).2.db.rows.map Row.id =
      initState.db.rows.map Row.id :=
  (C8_store_invariants [] initState 1 ⟨none, "x", none⟩).2.2

/-- C9: the scoped database connection of get_db is closed on every exit
path: whatever the handler outcome — normal response, HTTPException, or
infrastructure error — the dependency's finally clause closes the
connection, and at the dispatch level every request's connection log has
the connection closed exactly when it was opened. -/
theorem C9_connection_closed_on_every_exit
    (out : Except PyError Response × AppState) (req : Request)
    (s : AppState) :
    (get_db out).2 = ⟨true, true⟩ ∧
    (handle req s).2.2.closed = (handle req s).2.2.opened := by
  constructor
  · rcases out with ⟨o, st⟩
    cases o <;> rfl
  · cases req with
    | createReq b =>
      cases hb : b.name <;> simp [handle, validateItem, hb, finish_log]
    | readReq i => simp [handle, finish_log]
    | updateReq i b =>
      cases hb : b.name <;> simp [handle, validateItem, hb, finish_log]
    | deleteReq i => simp [handle, finish_log]
    | listReq => simp [handle, finish_log]

/-- C10: a PUT whose body omits description (pydantic default None)
performs a full replacement: the stored row with the path id keeps its
id but takes the new name and the null description, overwriting whatever
description was stored before rather than leaving it unchanged. -/
theorem C10_update_overwrites_description (s : AppState) (i : Int)
    (it : Item) (row0 : Row) (hd : it.description = none)
    (h : s.db.getById i = some row0) :
    (update_item i it s).2.db.getById i =
      some ⟨row0.id, it.name, none⟩ := by
  have h1 : List.find? (fun r => r.id == i) s.db.rows = some row0 := h
  have hbeq0 := List.find?_some h1
  have hbeq : (row0.id == i) = true := hbeq0
  rw [update_item_db]
  show List.find? (fun r => r.id == i)
      (s.db.rows.map (fun r =>
        if r.id == i then (⟨r.id, it.name, it.description⟩ : Row) else r)) =
    some ⟨row0.id, it.name, none⟩
  rw [List.find?_map]
  have hcomp : ((fun r : Row => r.id == i) ∘
      (fun r : Row =>
        if r.id == i then (⟨r.id, it.name, it.description⟩ : Row) else r)) =
      (fun r : Row => r.id == i) := by
    funext r
    simp only [Function.comp_apply]
    split <;> rfl
  rw [hcomp, h1]
  simp only [Option.map_some']
  rw [hbeq]
  simp [hd]

/-- C10 witness: the theorem at an update without description of a row
stored with description "keep". -/
theorem C10_update_witness :
    (update_item 1 ⟨none, "b", none⟩
      (handle (Request.createReq ⟨none, some "a", some "keep"⟩)
        initState).2.1).2.db.getById 1 = some ⟨1, "b", none⟩ :=
  C10_update_overwrites_description
    (handle (Request.createReq ⟨none, some "a", some "keep"⟩)
      initState).2.1 1 ⟨none, "b", none⟩ ⟨1, "a", some "keep"⟩ rfl
    (by decide)

end ObsTool
